import Mathlib

/-!
Verification development for the go-clean-architecture auth core.

Shallow embedding of:
  - internal/domain/entity (User, Role, Permission)
  - internal/infrastructure/auth/jwt/token.go (TokenService)
  - internal/infrastructure/auth/rbac/enforcer.go, policy.go (Enforcer,
    PolicyManager)
  - internal/infrastructure/auth/service.go (AuthService)
  - the auth middleware (AuthMiddleware)

Machine integers are modelled as Nat/Int; timestamps are Int (seconds).
The golang-jwt v5 library boundary is modelled by an abstract token value
recording what the parser can observe: structural well-formedness, signing
method, the key under which the signature verifies, whether the claims
decode into the expected struct, and the claims themselves.
-/

namespace GoClean

/-- entity.Permission (unnamed/part_008 / entity package): id, unique name,
resource, action, active flag. -/
structure Permission where
  id : Nat
  name : String
  resource : String
  action : String
  active : Bool
deriving Repr, DecidableEq

/-- entity.Role (unnamed/part_008): id, unique name, active flag, assigned
permissions. -/
structure Role where
  id : Nat
  name : String
  active : Bool
  permissions : List Permission
deriving Repr, DecidableEq

/-- entity.User (unnamed/part_007): id, email, bcrypt password hash (kept
as an opaque string here), names, active flag, assigned roles. -/
structure User where
  id : Nat
  email : String
  password : String
  firstName : String
  lastName : String
  active : Bool
  roles : List Role
deriving Repr, DecidableEq

/-- jwt.RegisteredClaims as used by token.go: issuer, subject and the three
timestamps. Timestamps are Int seconds. -/
structure RegisteredClaims where
  issuer : String
  subject : String
  expiresAt : Int
  issuedAt : Int
  notBefore : Int
deriving Repr, DecidableEq

/-- jwt.TokenClaims (token.go lines 19-27). -/
structure TokenClaims where
  userID : Nat
  email : String
  firstName : String
  lastName : String
  roles : List String
  permissions : List String
  reg : RegisteredClaims
deriving Repr, DecidableEq

/-- TokenService (token.go lines 30-34): secret key, configured expiry
duration (seconds), issuer. -/
structure TokenService where
  secretKey : String
  tokenExpiration : Int
  issuer : String
deriving Repr, DecidableEq

/-- JWT signing methods relevant to the keyfunc check in ValidateToken:
jwt.SigningMethodHMAC covers the HS* family. -/
inductive SigningMethod where
  | hs256
  | hs384
  | hs512
  | rs256
  | noneAlg
deriving Repr, DecidableEq

/-- The keyfunc in ValidateToken accepts exactly the HMAC family
(token.go line 99). -/
def SigningMethod.isHMAC : SigningMethod → Bool
  | .hs256 => true
  | .hs384 => true
  | .hs512 => true
  | _ => false

/-- Abstract model of a JWT compact string, recording what
jwt.ParseWithClaims can observe about it:
  - malformed: the string does not parse as a JWT at all;
  - signed method key decodable claims: a structurally well-formed token
    whose signature verifies under `key` with `method`, whose claims
    decode into *TokenClaims iff `decodable`, carrying `claims`.
A tampered or wrong-key token is a signed token whose `key` differs from
the verifying service's secret. -/
inductive TokenStr where
  | malformed (raw : String)
  | signed (method : SigningMethod) (key : String) (decodable : Bool)
      (claims : TokenClaims)
deriving Repr, DecidableEq

/-- Outcome of jwt.ParseWithClaims as observed by the calling code:
an error for which errors.Is(err, jwt.ErrTokenExpired) holds, any other
error, or parse success with/without a decodable *TokenClaims value. -/
inductive ParseOutcome where
  | errExpired
  | errOther
  | okDecoded (claims : TokenClaims)
  | okUndecodable
deriving Repr, DecidableEq

/-- Model of jwt.ParseWithClaims with the keyfunc of token.go lines 97-103,
verifying at time `now` with secret `secret`. Per golang-jwt v5: structural
parse, then keyfunc (signing-method check), then signature verification,
then registered-claims validation (expiry, then not-before; an expired
error dominates for errors.Is). -/
def parseWithClaims (secret : String) (now : Int) : TokenStr → ParseOutcome
  | .malformed _ => .errOther
  | .signed m k d c =>
    if ¬ m.isHMAC then .errOther
    else if k ≠ secret then .errOther
    else if c.reg.expiresAt ≤ now then .errExpired
    else if now < c.reg.notBefore then .errOther
    else if d then .okDecoded c else .okUndecodable

/-- The three sentinel errors of token.go lines 12-16. -/
inductive TokenError where
  | invalidToken
  | expiredToken
  | tokenClaims
deriving Repr, DecidableEq

/-- TokenService.ValidateToken (token.go lines 96-118): maps the parse
outcome to ErrExpiredToken / ErrInvalidToken, and the post-parse claims
type-assertion / token.Valid check to ErrTokenClaims. -/
def TokenService.ValidateToken (t : TokenService) (now : Int)
    (tok : TokenStr) : Except TokenError TokenClaims :=
  match parseWithClaims t.secretKey now tok with
  | .errExpired => .error .expiredToken
  | .errOther => .error .invalidToken
  | .okUndecodable => .error .tokenClaims
  | .okDecoded c => .ok c

/-- The inner permission-collection loop of GenerateToken (token.go lines
60-65): append each permission name not yet collected. The Go code pairs
the list with a membership map; here the list's own membership plays the
map's role. -/
def addPerms (acc : List String) (ps : List Permission) : List String :=
  ps.foldl (fun a p => if p.name ∈ a then a else a ++ [p.name]) acc

/-- The role loop of GenerateToken (token.go lines 56-66): role names in
order, permissions deduplicated across all roles in first-seen order. -/
def collectPermissions (roles : List Role) : List String :=
  roles.foldl (fun a r => addPerms a r.permissions) []

/-- The claims built by GenerateToken (token.go lines 69-83) at time
`now`. -/
def generateClaims (t : TokenService) (now : Int) (u : User) : TokenClaims :=
  { userID := u.id
    email := u.email
    firstName := u.firstName
    lastName := u.lastName
    roles := u.roles.map Role.name
    permissions := collectPermissions u.roles
    reg :=
      { issuer := t.issuer
        subject := u.email
        expiresAt := now + t.tokenExpiration
        issuedAt := now
        notBefore := now } }

/-- TokenService.GenerateToken (token.go lines 46-93). A nil user pointer
is `none`; HMAC signing with a present key succeeds, producing a signed
token under the service's key. -/
def TokenService.GenerateToken (t : TokenService) (now : Int) :
    Option User → Except String TokenStr
  | none => .error "user cannot be nil"
  | some u => .ok (.signed .hs256 t.secretKey true (generateClaims t now u))

/-- TokenService.RefreshToken (token.go lines 121-146): for non-nil claims
it unconditionally re-signs a new token with the same identity, roles and
permissions and registered claims rebuilt at `now`; there is no
refresh-window eligibility check anywhere in this function. -/
def TokenService.RefreshToken (t : TokenService) (now : Int) :
    Option TokenClaims → Except String TokenStr
  | none => .error "claims cannot be nil"
  | some c => .ok (.signed .hs256 t.secretKey true
      { userID := c.userID
        email := c.email
        firstName := c.firstName
        lastName := c.lastName
        roles := c.roles
        permissions := c.permissions
        reg :=
          { issuer := t.issuer
            subject := c.reg.subject
            expiresAt := now + t.tokenExpiration
            issuedAt := now
            notBefore := now } })

/-- ExtractTokenFromBearer (token.go lines 149-154). Go strings are byte
slices; headers are modelled as char lists (ASCII coincides). -/
def ExtractTokenFromBearer (authHeader : List Char) : List Char :=
  if 7 < authHeader.length ∧ authHeader.take 7 = "Bearer ".data then
    authHeader.drop 7
  else []

/-! ## RBAC engine (rbac/enforcer.go, rbac/policy.go)

The Casbin role-grouping store g(user, role) is modelled as a list of
(user, role) tuples; Casbin's set semantics are reflected by
AddRoleForUser refusing an existing tuple and DeleteRoleForUser refusing
a missing one, exactly as the Enforcer wrappers turn the Casbin booleans
into errors. SavePolicy is persistence through an external adapter and
has no observable in-memory effect. -/

/-- The engine's role-grouping tuple store: (user, role) pairs. -/
abbrev GStore := List (String × String)

/-- Enforcer.GetRolesForUser (enforcer.go lines 113-115): Casbin returns
the roles of the g-tuples whose user matches, in store order. -/
def GetRolesForUser (st : GStore) (user : String) : List String :=
  (st.filter (fun g => g.1 == user)).map (fun g => g.2)

/-- Enforcer.AddRoleForUser (enforcer.go lines 89-98): Casbin adds the
tuple and reports false if it already existed, which the wrapper turns
into an error. -/
def AddRoleForUser (st : GStore) (user role : String) :
    Except String GStore :=
  if (user, role) ∈ st then .error "role assignment already exists"
  else .ok (st ++ [(user, role)])

/-- Enforcer.DeleteRoleForUser (enforcer.go lines 101-110): Casbin removes
the tuple and reports false if it was absent, which the wrapper turns into
an error. -/
def DeleteRoleForUser (st : GStore) (user role : String) :
    Except String GStore :=
  if (user, role) ∈ st then .ok (st.erase (user, role))
  else .error "role assignment does not exist"

/-- The delete loop of PolicyManager.SyncUserPolicies (policy.go lines
144-148): delete each listed role for the user, stopping at the first
error; the store keeps the mutations applied so far. -/
def deleteRolesLoop (email : String) :
    GStore → List String → Option String × GStore
  | st, [] => (none, st)
  | st, r :: rs =>
    match DeleteRoleForUser st email r with
    | .error e => (some e, st)
    | .ok st' => deleteRolesLoop email st' rs

/-- The add loop of PolicyManager.SyncUserPolicies (policy.go lines
151-155): add each role name for the user, stopping at the first error. -/
def addRolesLoop (email : String) :
    GStore → List String → Option String × GStore
  | st, [] => (none, st)
  | st, r :: rs =>
    match AddRoleForUser st email r with
    | .error e => (some e, st)
    | .ok st' => addRolesLoop email st' rs

/-- PolicyManager.SyncUserPolicies (policy.go lines 135-158): read the
user's current role-grouping tuples, delete every one of them, then
re-add one tuple per role in user.Roles. Returns the first error (if any)
together with the store as mutated so far. -/
def SyncUserPolicies (st : GStore) (u : User) : Option String × GStore :=
  match deleteRolesLoop u.email st (GetRolesForUser st u.email) with
  | (some e, st') => (some e, st')
  | (none, st') => addRolesLoop u.email st' (u.roles.map Role.name)

/-- Enforcer.EnforceWithRoles (enforcer.go lines 51-62) over an abstract
single-evaluation function `enforce` (Casbin's Enforce, which may error):
evaluate role by role, return the first error, return true at the first
allowed role, and false when the list is exhausted. -/
def EnforceWithRoles (enforce : String → String → String → Except String Bool) :
    List String → String → String → Except String Bool
  | [], _, _ => .ok false
  | r :: rest, object, action =>
    match enforce r object action with
    | .error e => .error e
    | .ok true => .ok true
    | .ok false => EnforceWithRoles enforce rest object action

/-- The boolean result of a single evaluation, false on error; used only to
state the logical-OR characterization of EnforceWithRoles. -/
def okTrue (x : Except String Bool) : Bool :=
  match x with
  | .ok b => b
  | .error _ => false

/-! ## AuthService (auth/service.go) and middleware -/

/-- The sentinel errors of service.go lines 14-19, plus propagation of
other component errors. -/
inductive AuthError where
  | invalidCredentials
  | userNotFound
  | userInactive
  | emailAlreadyExists
  | other (msg : String)
deriving Repr, DecidableEq

/-- UserInfo (service.go lines 59-67). -/
structure UserInfo where
  id : Nat
  email : String
  firstName : String
  lastName : String
  active : Bool
  roles : List String
  permissions : List String
deriving Repr, DecidableEq

/-- LoginResponse (service.go lines 51-56). -/
structure LoginResponse where
  accessToken : TokenStr
  tokenType : String
  expiresIn : Int
  user : UserInfo
deriving Repr, DecidableEq

/-- The ExpiresIn value of service.go lines 113, 173 and 208:
int64(24 * time.Hour / time.Second), i.e. 24 hours in seconds, a constant
independent of the TokenService configuration. -/
def loginExpiresIn : Int := 24 * 3600000000000 / 1000000000

/-- AuthService.buildUserInfo (service.go lines 245-272): role names in
order and the same first-seen permission-name deduplication as
GenerateToken. -/
def buildUserInfo (u : User) : UserInfo :=
  { id := u.id
    email := u.email
    firstName := u.firstName
    lastName := u.lastName
    active := u.active
    roles := u.roles.map Role.name
    permissions := collectPermissions u.roles }

/-- UserRepository.GetByEmailWithRoles: the stored user with that email,
eagerly loaded with roles and permissions; an error when absent. -/
def getByEmailWithRoles (store : List User) (email : String) :
    Option User :=
  store.find? (fun u => u.email == email)

/-- UserRepository.GetByIDWithRoles: the stored user with that id. -/
def getByIDWithRoles (store : List User) (id : Nat) : Option User :=
  store.find? (fun u => u.id == id)

/-- AuthService.Login (service.go lines 78-116). `checkPw hash password`
models bcrypt.CompareHashAndPassword succeeding (entity.User.CheckPassword).
Returns the response (or error) together with the policy-engine store,
because SyncUserPolicies mutates it; a sync error is discarded
(service.go lines 102-105) and login still succeeds. -/
def Login (checkPw : String → String → Bool) (t : TokenService)
    (store : List User) (eng : GStore) (now : Int)
    (email password : String) : Except AuthError LoginResponse × GStore :=
  match getByEmailWithRoles store email with
  | none => (.error .invalidCredentials, eng)
  | some user =>
    if ¬ user.active then (.error .userInactive, eng)
    else if ¬ checkPw user.password password then
      (.error .invalidCredentials, eng)
    else
      match t.GenerateToken now (some user) with
      | .error e => (.error (.other e), eng)
      | .ok tok =>
        let eng' := (SyncUserPolicies eng user).2
        (.ok { accessToken := tok
               tokenType := "Bearer"
               expiresIn := loginExpiresIn
               user := buildUserInfo user }, eng')

/-- The user row created by AuthService.Register (service.go lines
126-143): active by default, holding the single default role, with the id
the database assigns on insert (the next free id). `hashPw` models
bcrypt.GenerateFromPassword (entity.User.SetPassword). -/
def registerCreatedUser (hashPw : String → String) (store : List User)
    (email password firstName lastName : String) (defaultRole : Role) :
    User :=
  { id := (store.map User.id).foldl max 0 + 1
    email := email
    password := hashPw password
    firstName := firstName
    lastName := lastName
    active := true
    roles := [defaultRole] }

/-- AuthService.Register (service.go lines 119-176). Returns the response
(or error), the user table, and the policy-engine store; a sync error is
discarded (service.go lines 162-165) and registration still succeeds. -/
def Register (hashPw : String → String) (t : TokenService)
    (store : List User) (roleStore : List Role) (eng : GStore) (now : Int)
    (email password firstName lastName : String) :
    Except AuthError LoginResponse × List User × GStore :=
  match store.find? (fun u => u.email == email) with
  | some _ => (.error .emailAlreadyExists, store, eng)
  | none =>
    match roleStore.find? (fun r => r.name == "employee") with
    | none => (.error (.other "default role not found"), store, eng)
    | some defaultRole =>
      let user : User :=
        registerCreatedUser hashPw store email password firstName lastName
          defaultRole
      let store' := store ++ [user]
      match getByIDWithRoles store' user.id with
      | none => (.error .userNotFound, store', eng)
      | some user' =>
        match t.GenerateToken now (some user') with
        | .error e => (.error (.other e), store', eng)
        | .ok tok =>
          let eng' := (SyncUserPolicies eng user').2
          (.ok { accessToken := tok
                 tokenType := "Bearer"
                 expiresIn := loginExpiresIn
                 user := buildUserInfo user' }, store', eng')

/-- Result of AuthService.RefreshToken: a response, an error, or a runtime
nil-pointer dereference (Go panic). -/
inductive RefreshResult where
  | ok (resp : LoginResponse)
  | err (e : AuthError)
  | nilPanic
deriving Repr, DecidableEq

/-- AuthService.RefreshToken (service.go lines 179-211). ValidateToken is
called first; an error other than ErrExpiredToken is rejected. In the
ErrExpiredToken case the code proceeds, but ValidateToken's expired branch
(token.go lines 106-108) returned a nil claims pointer, so the subsequent
claims.UserID read (service.go line 186) dereferences nil: that execution
is the `nilPanic` value. -/
def AuthRefreshToken (t : TokenService) (store : List User) (now : Int)
    (tok : TokenStr) : RefreshResult :=
  match t.ValidateToken now tok with
  | .error e =>
    if e ≠ .expiredToken then .err (.other "invalid refresh token")
    else .nilPanic
  | .ok claims =>
    match getByIDWithRoles store claims.userID with
    | none => .err .userNotFound
    | some user =>
      if ¬ user.active then .err .userInactive
      else
        match t.GenerateToken now (some user) with
        | .error e => .err (.other e)
        | .ok newTok =>
          .ok { accessToken := newTok
                tokenType := "Bearer"
                expiresIn := loginExpiresIn
                user := buildUserInfo user }

/-- Result of the auth middleware: an early JSON rejection with its error
message, or c.Next() with the request-scoped identity populated from the
claims. -/
inductive MwResult where
  | reject (message : String)
  | proceed (claims : TokenClaims)
deriving Repr, DecidableEq

/-- AuthMiddleware (middleware, src/unnamed/part_010 lines 188-235).
`parseTok` maps the extracted credential bytes to the abstract token value
they denote; it is only consulted after the header-shape checks pass. -/
def AuthMiddleware (t : TokenService) (now : Int)
    (parseTok : List Char → TokenStr) (authHeader : List Char) : MwResult :=
  if authHeader = [] then .reject "Authorization header is required"
  else if ¬ ("Bearer ".data.isPrefixOf authHeader) then
    .reject "Bearer token is required"
  else
    let token := ExtractTokenFromBearer authHeader
    if token = [] then .reject "Invalid token format"
    else
      match t.ValidateToken now (parseTok token) with
      | .error .expiredToken => .reject "Token has expired"
      | .error _ => .reject "Invalid token"
      | .ok claims => .proceed claims

/-- The expiry registered claim embedded in a signed token, if any. -/
def tokenExpiry : TokenStr → Option Int
  | .malformed _ => none
  | .signed _ _ _ c => some c.reg.expiresAt

/-! ## Concrete fixtures, used by witnesses and counterexamples -/

def permRead : Permission :=
  { id := 1, name := "employee.read", resource := "employees"
    action := "read", active := true }

def permCreate : Permission :=
  { id := 2, name := "employee.create", resource := "employees"
    action := "create", active := true }

/-- An hr_manager role whose permission list repeats a permission, to
exercise deduplication. -/
def roleHrManager : Role :=
  { id := 1, name := "hr_manager", active := true
    permissions := [permRead, permCreate, permRead] }

def roleEmployee : Role :=
  { id := 2, name := "employee", active := true, permissions := [permRead] }

def alice : User :=
  { id := 7, email := "alice@example.com", password := "bcrypt:correcthorse"
    firstName := "Alice", lastName := "L", active := true
    roles := [roleHrManager] }

def inactiveBob : User :=
  { id := 8, email := "bob@example.com", password := "bcrypt:pw"
    firstName := "Bob", lastName := "M", active := false
    roles := [roleEmployee] }

/-- A user whose role list repeats a role name, making SyncUserPolicies
fail at the duplicate AddRoleForUser. -/
def dupRoleCarol : User :=
  { id := 9, email := "carol@example.com", password := "bcrypt:pw"
    firstName := "Carol", lastName := "D", active := true
    roles := [roleEmployee, roleEmployee] }

def svcA : TokenService :=
  { secretKey := "secret-key", tokenExpiration := 3600
    issuer := "go-clean-arch" }

/-- A service configured with a 2-hour expiry, distinct from the reported
24 hours. -/
def svcTwoHours : TokenService :=
  { secretKey := "secret-key", tokenExpiration := 7200
    issuer := "go-clean-arch" }

/-- The bcrypt comparison model matching the fixture password hashes. -/
def checkPwA : String → String → Bool := fun h p => h == "bcrypt:" ++ p

/-- Claims whose expiry is far in the future relative to time 0. -/
def farClaims : TokenClaims :=
  { userID := 1, email := "a@b.c", firstName := "A", lastName := "B"
    roles := ["admin"], permissions := ["users.read"]
    reg :=
      { issuer := "go-clean-arch", subject := "a@b.c"
        expiresAt := 1000000, issuedAt := 0, notBefore := 0 } }

/-- Claims that expired at time 3600. -/
def shortClaims : TokenClaims :=
  { userID := 7, email := "alice@example.com", firstName := "Alice"
    lastName := "L", roles := ["hr_manager"]
    permissions := ["employee.read"]
    reg :=
      { issuer := "go-clean-arch", subject := "alice@example.com"
        expiresAt := 3600, issuedAt := 0, notBefore := 0 } }

/-- A token correctly signed with svcA's key whose expiry has passed by
time 5000. -/
def expiredTokA : TokenStr := .signed .hs256 "secret-key" true shortClaims

/-- A single-evaluation policy function granting only
(hr_manager, employees, read); used to instantiate EnforceWithRoles. -/
def engW : String → String → String → Except String Bool :=
  fun r o a => .ok (r == "hr_manager" && o == "employees" && a == "read")

/-- The response produced by a successful login of alice against
svcTwoHours at time 0; used to instantiate the ExpiresIn theorems. -/
def respW : LoginResponse :=
  { accessToken := .signed .hs256 "secret-key" true
      (generateClaims svcTwoHours 0 alice)
    tokenType := "Bearer"
    expiresIn := loginExpiresIn
    user := buildUserInfo alice }

/-! ## Theorems -/

lemma enforceWithRoles_or
    (enforce : String → String → String → Except String Bool)
    (roles : List String) (object action : String)
    (h : ∀ r ∈ roles, ∃ b, enforce r object action = .ok b) :
    EnforceWithRoles enforce roles object action =
      .ok (roles.any fun r => okTrue (enforce r object action)) := by
  induction roles with
  | nil => rfl
  | cons r rest ih =>
    obtain ⟨b, hb⟩ := h r (List.mem_cons_self r rest)
    have hrest := fun r' hr' => h r' (List.mem_cons_of_mem _ hr')
    cases b with
    | true => simp [EnforceWithRoles, hb, okTrue]
    | false => simp [EnforceWithRoles, hb, okTrue, ih hrest]

lemma enforceWithRoles_firstMatch
    (enforce : String → String → String → Except String Bool)
    (pre : List String) (r : String) (rest : List String)
    (object action : String)
    (hpre : ∀ r' ∈ pre, enforce r' object action = .ok false)
    (hr : enforce r object action = .ok true) :
    EnforceWithRoles enforce (pre ++ r :: rest) object action = .ok true := by
  induction pre with
  | nil => simp [EnforceWithRoles, hr]
  | cons p ps ih =>
    have hp := hpre p (List.mem_cons_self p ps)
    simp only [List.cons_append, EnforceWithRoles, hp]
    exact ih fun r' hr' => hpre r' (List.mem_cons_of_mem _ hr')

/-- C5: EnforceWithRoles(roles, object, action) returns the logical OR of
Enforce(role, object, action) over the given roles, evaluating in list
order and returning true at the first matching role without consulting the
remaining roles (the result is fixed by the evaluations on the prefix up
to and including the first match); for the empty role list it returns
false for every object and action. -/
theorem enforceWithRoles_or_shortcircuit :
    (∀ (enforce : String → String → String → Except String Bool)
       (object action : String),
      EnforceWithRoles enforce [] object action = .ok false) ∧
    (∀ (enforce : String → String → String → Except String Bool)
       (roles : List String) (object action : String),
      (∀ r ∈ roles, ∃ b, enforce r object action = .ok b) →
      EnforceWithRoles enforce roles object action =
        .ok (roles.any fun r => okTrue (enforce r object action))) ∧
    (∀ (enforce : String → String → String → Except String Bool)
       (pre : List String) (r : String) (rest : List String)
       (object action : String),
      (∀ r' ∈ pre, enforce r' object action = .ok false) →
      enforce r object action = .ok true →
      EnforceWithRoles enforce (pre ++ r :: rest) object action = .ok true) :=
  ⟨fun _ _ _ => rfl,
   fun e roles o a h => enforceWithRoles_or e roles o a h,
   fun e pre r rest o a h1 h2 => enforceWithRoles_firstMatch e pre r rest o a h1 h2⟩

theorem enforceWithRoles_or_shortcircuit_witness :
    EnforceWithRoles engW [] "employees" "read" = .ok false ∧
    EnforceWithRoles engW ["employee", "hr_manager"] "employees" "read" =
      .ok ((["employee", "hr_manager"]).any fun r =>
        okTrue (engW r "employees" "read")) ∧
    EnforceWithRoles engW (["employee"] ++ "hr_manager" :: ["admin"])
      "employees" "read" = .ok true := by
  refine ⟨enforceWithRoles_or_shortcircuit.1 engW _ _,
    enforceWithRoles_or_shortcircuit.2.1 engW _ _ _ ?_,
    enforceWithRoles_or_shortcircuit.2.2 engW _ _ _ _ _ ?_ (by rfl)⟩
  · intro r _
    exact ⟨_, rfl⟩
  · intro r' hr'
    simp only [List.mem_singleton] at hr'
    subst hr'
    rfl

/-- C1 counterexample: TokenService.RefreshToken (token.go) performs no
refresh-window eligibility check. At time 0, claims whose remaining
time-to-expiry is 1000000 seconds — beyond a 24-hour window and far beyond
the service's own 3600-second token lifetime — are refreshed successfully
and a new token is issued, where the claim requires a "not yet eligible
for refresh" failure. -/
theorem refreshToken_ineligible_still_succeeds :
    farClaims.reg.expiresAt - 0 > 86400 ∧
    svcA.RefreshToken 0 (some farClaims) =
      .ok (.signed .hs256 "secret-key" true
        { userID := 1, email := "a@b.c", firstName := "A", lastName := "B"
          roles := ["admin"], permissions := ["users.read"]
          reg :=
            { issuer := "go-clean-arch", subject := "a@b.c"
              expiresAt := 3600, issuedAt := 0, notBefore := 0 } }) :=
  ⟨by decide, by rfl⟩

/-- C1 amended: TokenService.RefreshToken(claims) succeeds for every
non-nil claims, re-signing a token with the same
userID/email/name/roles/permissions and a fresh expiry of now plus the
configured duration, regardless of the remaining time-to-expiry; it fails
only on nil claims. (No refresh-window check exists in this TokenService;
one exists only in the separate jwtService implementation.) -/
theorem refreshToken_always_reissues (t : TokenService) (now : Int)
    (c : TokenClaims) :
    t.RefreshToken now (some c) =
      .ok (.signed .hs256 t.secretKey true
        { userID := c.userID, email := c.email, firstName := c.firstName
          lastName := c.lastName, roles := c.roles
          permissions := c.permissions
          reg :=
            { issuer := t.issuer, subject := c.reg.subject
              expiresAt := now + t.tokenExpiration, issuedAt := now
              notBefore := now } }) ∧
    t.RefreshToken now none = .error "claims cannot be nil" :=
  ⟨rfl, rfl⟩

/-- C2: evaluation at the failing input. For a token correctly signed with
the service's key whose expiry (3600) has passed by the validation time
(5000), ValidateToken yields the ExpiredToken outcome with a nil claims
pointer, and AuthService.RefreshToken — which tolerates exactly this error
— then dereferences claims.UserID: the run is a nil-pointer panic, not a
successful refresh. -/
theorem authRefreshToken_expired_nil_deref :
    svcA.ValidateToken 5000 expiredTokA = .error .expiredToken ∧
    AuthRefreshToken svcA [alice] 5000 expiredTokA = .nilPanic :=
  ⟨rfl, rfl⟩

lemma deleteRolesLoop_skip (g : String × String) (email : String) :
    ∀ (rs : List String) (st : GStore),
    (∀ r ∈ rs, g ≠ (email, r)) →
    deleteRolesLoop email (g :: st) rs =
      ((deleteRolesLoop email st rs).1,
       g :: (deleteRolesLoop email st rs).2) := by
  intro rs
  induction rs with
  | nil =>
    intro st _
    rfl
  | cons r rs ih =>
    intro st h
    have hg : g ≠ (email, r) := h r (List.mem_cons_self _ _)
    by_cases hm : (email, r) ∈ st
    · have hmem : (email, r) ∈ g :: st := List.mem_cons_of_mem _ hm
      have hbeq : ¬ (g == (email, r)) = true := by
        simp [hg]
      simp only [deleteRolesLoop, DeleteRoleForUser, if_pos hmem, if_pos hm,
        List.erase_cons_tail hbeq]
      exact ih _ (fun r' hr' => h r' (List.mem_cons_of_mem _ hr'))
    · have hnmem : (email, r) ∉ g :: st := by
        intro hc
        rcases List.mem_cons.mp hc with hc1 | hc2
        · exact hg hc1.symm
        · exact hm hc2
      simp only [deleteRolesLoop, DeleteRoleForUser, if_neg hnmem, if_neg hm]

lemma deleteRolesLoop_all (email : String) : ∀ (l : GStore),
    deleteRolesLoop email l (GetRolesForUser l email) =
      (none, l.filter (fun g => ! (g.1 == email))) := by
  intro l
  induction l with
  | nil => rfl
  | cons g l ih =>
    by_cases hg : g.1 = email
    · have hgpair : (email, g.2) = g := by
        cases g
        simp only at hg
        simp [hg]
      have hfilter : GetRolesForUser (g :: l) email =
          g.2 :: GetRolesForUser l email := by
        simp [GetRolesForUser, List.filter_cons, hg]
      rw [hfilter]
      have hmem : (email, g.2) ∈ g :: l := by
        rw [hgpair]
        exact List.mem_cons_self _ _
      have herase : (g :: l).erase (email, g.2) = l := by
        rw [hgpair]
        exact List.erase_cons_head _ _
      simp only [deleteRolesLoop, DeleteRoleForUser, if_pos hmem, herase, ih]
      simp [List.filter_cons, hg]
    · have hroles : GetRolesForUser (g :: l) email =
          GetRolesForUser l email := by
        simp [GetRolesForUser, List.filter_cons, hg]
      rw [hroles,
        deleteRolesLoop_skip g email _ l
          (fun r hr hc => hg (by rw [hc])),
        ih]
      simp [List.filter_cons, hg]

lemma addRolesLoop_all (email : String) : ∀ (names : List String)
    (l : GStore),
    names.Nodup → (∀ n ∈ names, (email, n) ∉ l) →
    addRolesLoop email l names =
      (none, l ++ names.map (fun n => (email, n))) := by
  intro names
  induction names with
  | nil =>
    intro l _ _
    simp [addRolesLoop]
  | cons n ns ih =>
    intro l hnd hmem
    have hn : (email, n) ∉ l := hmem n (List.mem_cons_self _ _)
    simp only [addRolesLoop, AddRoleForUser, if_neg hn]
    rw [ih (l ++ [(email, n)]) (List.nodup_cons.mp hnd).2 ?_]
    · simp
    · intro m hm hc
      rcases List.mem_append.mp hc with h | h
      · exact hmem m (List.mem_cons_of_mem _ hm) h
      · have hmn : m = n := by
          have := List.mem_singleton.mp h
          exact (Prod.mk.injEq _ _ _ _ ▸ this).2
        exact (List.nodup_cons.mp hnd).1 (hmn ▸ hm)

lemma syncUserPolicies_eq (st : GStore) (u : User)
    (h : (u.roles.map Role.name).Nodup) :
    SyncUserPolicies st u =
      (none, st.filter (fun g => ! (g.1 == u.email)) ++
        (u.roles.map Role.name).map (fun n => (u.email, n))) := by
  unfold SyncUserPolicies
  rw [deleteRolesLoop_all]
  exact addRolesLoop_all u.email _ _ h
    (fun n hn hc => by simp [List.mem_filter] at hc)

/-- C8: SyncUserPolicies is idempotent. For every user whose role names
are distinct (the data model makes role names unique), a call succeeds,
a second immediate call on the resulting engine state returns exactly the
same error-free result and state, and the engine's role-grouping tuples
for that user's email are precisely one tuple per role in user.Roles. -/
theorem syncUserPolicies_idempotent (st : GStore) (u : User)
    (h : (u.roles.map Role.name).Nodup) :
    SyncUserPolicies (SyncUserPolicies st u).2 u = SyncUserPolicies st u ∧
    (SyncUserPolicies st u).1 = none ∧
    GetRolesForUser (SyncUserPolicies st u).2 u.email =
      u.roles.map Role.name := by
  have h1 := syncUserPolicies_eq st u h
  have hF : (st.filter (fun g => ! (g.1 == u.email))).filter
      (fun g => ! (g.1 == u.email)) =
      st.filter (fun g => ! (g.1 == u.email)) := by
    refine List.filter_eq_self.mpr ?_
    intro x hx
    have hx' := List.of_mem_filter hx
    exact hx'
  have hM : ((u.roles.map Role.name).map (fun n => (u.email, n))).filter
      (fun g => ! (g.1 == u.email)) = [] := by
    refine List.filter_eq_nil_iff.mpr ?_
    intro x hx
    rcases List.mem_map.mp hx with ⟨n, _, rfl⟩
    simp
  refine ⟨?_, by rw [h1], ?_⟩
  · rw [h1]
    have h2 := syncUserPolicies_eq
      (st.filter (fun g => ! (g.1 == u.email)) ++
        (u.roles.map Role.name).map (fun n => (u.email, n))) u h
    rw [h2, List.filter_append, hF, hM, List.append_nil]
  · rw [h1]
    show GetRolesForUser
      (st.filter (fun g => ! (g.1 == u.email)) ++
        (u.roles.map Role.name).map (fun n => (u.email, n))) u.email =
      u.roles.map Role.name
    unfold GetRolesForUser
    rw [List.filter_append]
    have hF0 : (st.filter (fun g => ! (g.1 == u.email))).filter
        (fun g => g.1 == u.email) = [] := by
      refine List.filter_eq_nil_iff.mpr ?_
      intro x hx
      have := List.of_mem_filter hx
      simp at this
      simp [this]
    have hM0 : ((u.roles.map Role.name).map (fun n => (u.email, n))).filter
        (fun g => g.1 == u.email) =
        (u.roles.map Role.name).map (fun n => (u.email, n)) := by
      refine List.filter_eq_self.mpr ?_
      intro x hx
      rcases List.mem_map.mp hx with ⟨n, _, rfl⟩
      simp
    rw [hF0, hM0, List.nil_append, List.map_map]
    simp

theorem syncUserPolicies_idempotent_witness :
    SyncUserPolicies
      (SyncUserPolicies [("bob", "x"), ("alice@example.com", "old")] alice).2
      alice =
      SyncUserPolicies [("bob", "x"), ("alice@example.com", "old")] alice ∧
    (SyncUserPolicies [("bob", "x"), ("alice@example.com", "old")] alice).1 =
      none ∧
    GetRolesForUser
      (SyncUserPolicies [("bob", "x"), ("alice@example.com", "old")] alice).2
      alice.email = alice.roles.map Role.name :=
  syncUserPolicies_idempotent [("bob", "x"), ("alice@example.com", "old")]
    alice (by decide)

/-- C9: ExtractTokenFromBearer returns the substring after the 7-character
prefix "Bearer " exactly when the header is strictly longer than 7
characters and begins with that prefix, and the empty string otherwise; a
header of exactly "Bearer " yields the empty string, which AuthMiddleware
rejects as an invalid token format without consulting the token value or
the token service (the rejection holds for every parse function and
service). -/
theorem extractTokenFromBearer_spec :
    (∀ h : List Char, 7 < h.length ∧ h.take 7 = "Bearer ".data →
      ExtractTokenFromBearer h = h.drop 7) ∧
    (∀ h : List Char, ¬ (7 < h.length ∧ h.take 7 = "Bearer ".data) →
      ExtractTokenFromBearer h = []) ∧
    ExtractTokenFromBearer "Bearer ".data = [] ∧
    (∀ (t : TokenService) (now : Int) (parseTok : List Char → TokenStr),
      AuthMiddleware t now parseTok "Bearer ".data =
        .reject "Invalid token format") := by
  refine ⟨?_, ?_, by decide, fun t now parseTok => rfl⟩
  · intro h hh
    simp only [ExtractTokenFromBearer, if_pos hh]
  · intro h hh
    simp only [ExtractTokenFromBearer, if_neg hh]

lemma addPerms_cons (acc : List String) (p : Permission)
    (ps : List Permission) :
    addPerms acc (p :: ps) =
      addPerms (if p.name ∈ acc then acc else acc ++ [p.name]) ps := rfl

lemma mem_addPerms (x : String) : ∀ (ps : List Permission)
    (acc : List String),
    x ∈ addPerms acc ps ↔ x ∈ acc ∨ ∃ p ∈ ps, p.name = x := by
  intro ps
  induction ps with
  | nil =>
    intro acc
    simp [addPerms]
  | cons p ps ih =>
    intro acc
    rw [addPerms_cons]
    by_cases hp : p.name ∈ acc
    · rw [if_pos hp, ih]
      constructor
      · rintro (h | ⟨q, hq, rfl⟩)
        · exact .inl h
        · exact .inr ⟨q, List.mem_cons_of_mem _ hq, rfl⟩
      · rintro (h | ⟨q, hq, rfl⟩)
        · exact .inl h
        · rcases List.mem_cons.mp hq with rfl | hq'
          · exact .inl hp
          · exact .inr ⟨q, hq', rfl⟩
    · rw [if_neg hp, ih]
      simp only [List.mem_append, List.mem_singleton]
      constructor
      · rintro ((h | rfl) | ⟨q, hq, rfl⟩)
        · exact .inl h
        · exact .inr ⟨p, List.mem_cons_self _ _, rfl⟩
        · exact .inr ⟨q, List.mem_cons_of_mem _ hq, rfl⟩
      · rintro (h | ⟨q, hq, rfl⟩)
        · exact .inl (.inl h)
        · rcases List.mem_cons.mp hq with rfl | hq'
          · exact .inl (.inr rfl)
          · exact .inr ⟨q, hq', rfl⟩

lemma nodup_addPerms : ∀ (ps : List Permission) (acc : List String),
    acc.Nodup → (addPerms acc ps).Nodup := by
  intro ps
  induction ps with
  | nil =>
    intro acc h
    simpa [addPerms] using h
  | cons p ps ih =>
    intro acc h
    rw [addPerms_cons]
    by_cases hp : p.name ∈ acc
    · rw [if_pos hp]
      exact ih acc h
    · rw [if_neg hp]
      refine ih _ ?_
      simp [List.nodup_append, h, hp]

lemma mem_collect_aux (x : String) : ∀ (roles : List Role)
    (acc : List String),
    x ∈ roles.foldl (fun a r => addPerms a r.permissions) acc ↔
      x ∈ acc ∨ ∃ r ∈ roles, ∃ p ∈ r.permissions, p.name = x := by
  intro roles
  induction roles with
  | nil =>
    intro acc
    simp
  | cons r rs ih =>
    intro acc
    rw [List.foldl_cons, ih, mem_addPerms]
    constructor
    · rintro ((h | ⟨p, hp, rfl⟩) | ⟨r', hr', p, hp, rfl⟩)
      · exact .inl h
      · exact .inr ⟨r, List.mem_cons_self _ _, p, hp, rfl⟩
      · exact .inr ⟨r', List.mem_cons_of_mem _ hr', p, hp, rfl⟩
    · rintro (h | ⟨r', hr', p, hp, rfl⟩)
      · exact .inl (.inl h)
      · rcases List.mem_cons.mp hr' with rfl | h'
        · exact .inl (.inr ⟨p, hp, rfl⟩)
        · exact .inr ⟨r', h', p, hp, rfl⟩

lemma nodup_collect_aux : ∀ (roles : List Role) (acc : List String),
    acc.Nodup →
    (roles.foldl (fun a r => addPerms a r.permissions) acc).Nodup := by
  intro roles
  induction roles with
  | nil =>
    intro acc h
    simpa using h
  | cons r rs ih =>
    intro acc h
    rw [List.foldl_cons]
    exact ih _ (nodup_addPerms _ _ h)

lemma mem_collectPermissions (x : String) (roles : List Role) :
    x ∈ collectPermissions roles ↔
      ∃ r ∈ roles, ∃ p ∈ r.permissions, p.name = x := by
  rw [collectPermissions, mem_collect_aux]
  simp

lemma nodup_collectPermissions (roles : List Role) :
    (collectPermissions roles).Nodup :=
  nodup_collect_aux roles [] List.nodup_nil

/-- C3: for every user, GenerateToken succeeds, and validating the issued
token before its expiry (and at or after issuance) returns claims whose
role list equals the user's role names exactly and whose permission list
is duplicate-free and contains precisely the permission names carried by
the user's roles. -/
theorem validate_generate_roundtrip (t : TokenService) (now vt : Int)
    (u : User) (h1 : now ≤ vt) (h2 : vt < now + t.tokenExpiration) :
    ∃ tok claims,
      t.GenerateToken now (some u) = .ok tok ∧
      t.ValidateToken vt tok = .ok claims ∧
      claims.roles = u.roles.map Role.name ∧
      claims.permissions.Nodup ∧
      (∀ x, x ∈ claims.permissions ↔
        ∃ r ∈ u.roles, ∃ p ∈ r.permissions, p.name = x) := by
  refine ⟨_, generateClaims t now u, rfl, ?_, rfl,
    nodup_collectPermissions _, fun x => mem_collectPermissions x u.roles⟩
  have hexp : ¬ ((now + t.tokenExpiration : Int) ≤ vt) := not_le.mpr h2
  have hnb : ¬ (vt < (now : Int)) := not_lt.mpr h1
  simp [TokenService.ValidateToken, parseWithClaims, generateClaims,
    SigningMethod.isHMAC, hexp, hnb]

theorem validate_generate_roundtrip_witness :
    ∃ tok claims,
      svcA.GenerateToken 0 (some alice) = .ok tok ∧
      svcA.ValidateToken 10 tok = .ok claims ∧
      claims.roles = alice.roles.map Role.name ∧
      claims.permissions.Nodup ∧
      (∀ x, x ∈ claims.permissions ↔
        ∃ r ∈ alice.roles, ∃ p ∈ r.permissions, p.name = x) :=
  validate_generate_roundtrip svcA 0 10 alice (by decide) (by decide)

/-- C4: ValidateToken discriminates failure modes: a token correctly
signed with the service's key (HMAC method) whose expiry has passed
returns ExpiredToken (and, ValidateToken being a function, never
InvalidToken); a wrong-key/tampered signature, a malformed structure, or a
non-HMAC signing method returns InvalidToken (never ExpiredToken); a
structurally valid, correctly signed, unexpired token whose claims cannot
be decoded returns TokenClaimsError. -/
theorem validateToken_error_discrimination (t : TokenService) (now : Int) :
    (∀ (m : SigningMethod) (k : String) (d : Bool) (c : TokenClaims),
      m.isHMAC = true → k = t.secretKey → c.reg.expiresAt ≤ now →
      t.ValidateToken now (.signed m k d c) = .error .expiredToken) ∧
    (∀ (m : SigningMethod) (k : String) (d : Bool) (c : TokenClaims),
      k ≠ t.secretKey →
      t.ValidateToken now (.signed m k d c) = .error .invalidToken) ∧
    (∀ s : String,
      t.ValidateToken now (.malformed s) = .error .invalidToken) ∧
    (∀ (m : SigningMethod) (k : String) (d : Bool) (c : TokenClaims),
      m.isHMAC = false →
      t.ValidateToken now (.signed m k d c) = .error .invalidToken) ∧
    (∀ (m : SigningMethod) (k : String) (c : TokenClaims),
      m.isHMAC = true → k = t.secretKey → now < c.reg.expiresAt →
      c.reg.notBefore ≤ now →
      t.ValidateToken now (.signed m k false c) = .error .tokenClaims) := by
  refine ⟨?_, ?_, fun s => rfl, ?_, ?_⟩
  · intro m k d c hm hk he
    simp [TokenService.ValidateToken, parseWithClaims, hm, hk, he]
  · intro m k d c hk
    by_cases hm : m.isHMAC
    · simp [TokenService.ValidateToken, parseWithClaims, hm, hk]
    · simp [TokenService.ValidateToken, parseWithClaims, hm]
  · intro m k d c hm
    simp [TokenService.ValidateToken, parseWithClaims, hm]
  · intro m k c hm hk hlt hnb
    simp [TokenService.ValidateToken, parseWithClaims, hm, hk,
      not_le.mpr hlt, not_lt.mpr hnb]

theorem validateToken_error_discrimination_witness :
    svcA.ValidateToken 5000 (.signed .hs256 "secret-key" true shortClaims) =
      .error .expiredToken ∧
    svcA.ValidateToken 0 (.signed .hs256 "wrong-key" true shortClaims) =
      .error .invalidToken ∧
    svcA.ValidateToken 0 (.malformed "garbage") = .error .invalidToken ∧
    svcA.ValidateToken 0 (.signed .rs256 "secret-key" true shortClaims) =
      .error .invalidToken ∧
    svcA.ValidateToken 10 (.signed .hs256 "secret-key" false shortClaims) =
      .error .tokenClaims :=
  ⟨(validateToken_error_discrimination svcA 5000).1 _ _ _ _ rfl rfl
      (by decide),
   (validateToken_error_discrimination svcA 0).2.1 _ _ _ _ (by decide),
   (validateToken_error_discrimination svcA 0).2.2.1 _,
   (validateToken_error_discrimination svcA 0).2.2.2.1 _ _ _ _ rfl,
   (validateToken_error_discrimination svcA 10).2.2.2.2 _ _ _ rfl rfl
      (by decide) (by decide)⟩

/-- C6: Login for a stored user whose active flag is false fails with
UserInactive and issues no token, for every password-checking function —
in particular when the supplied password is correct — because the active
check sits after the existence check and before password verification; a
nonexistent email yields InvalidCredentials, and an existing active user
with a wrong password yields InvalidCredentials. -/
theorem login_checks_order_and_errors :
    (∀ (checkPw : String → String → Bool) (t : TokenService)
       (store : List User) (eng : GStore) (now : Int)
       (email password : String) (u : User),
      getByEmailWithRoles store email = some u → u.active = false →
      (Login checkPw t store eng now email password).1 =
        .error .userInactive) ∧
    (∀ (checkPw : String → String → Bool) (t : TokenService)
       (store : List User) (eng : GStore) (now : Int)
       (email password : String),
      getByEmailWithRoles store email = none →
      (Login checkPw t store eng now email password).1 =
        .error .invalidCredentials) ∧
    (∀ (checkPw : String → String → Bool) (t : TokenService)
       (store : List User) (eng : GStore) (now : Int)
       (email password : String) (u : User),
      getByEmailWithRoles store email = some u → u.active = true →
      checkPw u.password password = false →
      (Login checkPw t store eng now email password).1 =
        .error .invalidCredentials) := by
  refine ⟨?_, ?_, ?_⟩
  · intro cp t store eng now email pw u hf ha
    simp [Login, hf, ha]
  · intro cp t store eng now email pw hf
    simp [Login, hf]
  · intro cp t store eng now email pw u hf ha hpw
    simp [Login, hf, ha, hpw]

theorem login_checks_order_and_errors_witness :
    (Login checkPwA svcA [inactiveBob] [] 0 "bob@example.com" "pw").1 =
      .error .userInactive ∧
    (Login checkPwA svcA [] [] 0 "nobody@example.com" "pw").1 =
      .error .invalidCredentials ∧
    (Login checkPwA svcA [alice] [] 0 "alice@example.com" "wrong").1 =
      .error .invalidCredentials :=
  ⟨login_checks_order_and_errors.1 checkPwA svcA [inactiveBob] [] 0 _ _
      inactiveBob rfl rfl,
   login_checks_order_and_errors.2.1 checkPwA svcA [] [] 0 _ _ rfl,
   login_checks_order_and_errors.2.2 checkPwA svcA [alice] [] 0 _ _
      alice rfl rfl rfl⟩

theorem extractTokenFromBearer_spec_witness :
    ExtractTokenFromBearer "Bearer abc".data = "Bearer abc".data.drop 7 ∧
    ExtractTokenFromBearer "Token abc".data = [] :=
  ⟨extractTokenFromBearer_spec.1 "Bearer abc".data (by decide),
   extractTokenFromBearer_spec.2.1 "Token abc".data (by decide)⟩

lemma le_foldl_max : ∀ (l : List Nat) (a : Nat), a ≤ l.foldl max a := by
  intro l
  induction l with
  | nil => intro a; exact le_refl a
  | cons x xs ih =>
    intro a
    calc a ≤ max a x := le_max_left a x
    _ ≤ xs.foldl max (max a x) := ih (max a x)

lemma mem_le_foldl_max : ∀ (l : List Nat) (a x : Nat),
    x ∈ l → x ≤ l.foldl max a := by
  intro l
  induction l with
  | nil =>
    intro a x hx
    exact absurd hx (List.not_mem_nil x)
  | cons y ys ih =>
    intro a x hx
    rcases List.mem_cons.mp hx with rfl | hx'
    · calc x ≤ max a x := le_max_right a x
      _ ≤ ys.foldl max (max a x) := le_foldl_max ys (max a x)
    · exact ih (max a y) x hx'

/-- The id the database assigns in Register is fresh: no stored user
carries it. -/
lemma register_fresh_id (store : List User) :
    ∀ u ∈ store, u.id ≠ (store.map User.id).foldl max 0 + 1 := by
  intro u hu heq
  have hle : u.id ≤ (store.map User.id).foldl max 0 :=
    mem_le_foldl_max _ 0 u.id (List.mem_map.mpr ⟨u, hu, rfl⟩)
  omega

/-- Reloading the just-created user by its fresh id finds it. -/
lemma getByIDWithRoles_append_self : ∀ (store : List User) (user : User),
    (∀ u ∈ store, u.id ≠ user.id) →
    getByIDWithRoles (store ++ [user]) user.id = some user := by
  intro store
  induction store with
  | nil =>
    intro user _
    simp [getByIDWithRoles, List.find?]
  | cons v vs ih =>
    intro user h
    have hv : (v.id == user.id) = false :=
      beq_eq_false_iff_ne.mpr (h v (List.mem_cons_self _ _))
    have htail := ih user (fun u hu => h u (List.mem_cons_of_mem _ hu))
    simp only [getByIDWithRoles] at htail ⊢
    rw [List.cons_append, List.find?_cons_of_neg _ (by simp [hv]), htail]

/-- C7: when the credential path succeeds, a failure of the subsequent
SyncUserPolicies call is swallowed: Login still returns a successful
response carrying the issued token even under the explicit hypothesis
that synchronization returns an error on the given engine state, and
Register's returned response is the same for every engine state —
whatever the synchronization outcome, no error is surfaced. -/
theorem login_register_sync_failure_swallowed :
    (∀ (checkPw : String → String → Bool) (t : TokenService)
       (store : List User) (eng : GStore) (now : Int)
       (email password : String) (u : User) (e : String),
      getByEmailWithRoles store email = some u →
      u.active = true →
      checkPw u.password password = true →
      (SyncUserPolicies eng u).1 = some e →
      (Login checkPw t store eng now email password).1 =
        .ok { accessToken := .signed .hs256 t.secretKey true
                (generateClaims t now u)
              tokenType := "Bearer"
              expiresIn := loginExpiresIn
              user := buildUserInfo u }) ∧
    (∀ (hashPw : String → String) (t : TokenService) (store : List User)
       (roleStore : List Role) (eng : GStore) (now : Int)
       (email password firstName lastName : String) (dr : Role),
      store.find? (fun u => u.email == email) = none →
      roleStore.find? (fun rl => rl.name == "employee") = some dr →
      (Register hashPw t store roleStore eng now email password firstName
          lastName).1 =
        .ok { accessToken := .signed .hs256 t.secretKey true
                (generateClaims t now
                  (registerCreatedUser hashPw store email password firstName
                    lastName dr))
              tokenType := "Bearer"
              expiresIn := loginExpiresIn
              user := buildUserInfo
                (registerCreatedUser hashPw store email password firstName
                  lastName dr) }) := by
  constructor
  · intro cp t store eng now email pw u e hf ha hpw _
    simp [Login, hf, ha, hpw, TokenService.GenerateToken]
  · intro hashPw t store roleStore eng now email pw fn ln dr hf hrole
    have hget := getByIDWithRoles_append_self store
      (registerCreatedUser hashPw store email pw fn ln dr)
      (register_fresh_id store)
    simp [Register, hf, hrole, hget, TokenService.GenerateToken]

theorem login_register_sync_failure_swallowed_witness :
    (SyncUserPolicies [] dupRoleCarol).1 =
      some "role assignment already exists" ∧
    (Login checkPwA svcA [dupRoleCarol] [] 0 "carol@example.com" "pw").1 =
      .ok { accessToken := .signed .hs256 "secret-key" true
              (generateClaims svcA 0 dupRoleCarol)
            tokenType := "Bearer"
            expiresIn := loginExpiresIn
            user := buildUserInfo dupRoleCarol } ∧
    (Register (fun p => "bcrypt:" ++ p) svcA [alice] [roleEmployee] []
        0 "dan@example.com" "pw" "Dan" "E").1 =
      .ok { accessToken := .signed .hs256 "secret-key" true
              (generateClaims svcA 0
                (registerCreatedUser (fun p => "bcrypt:" ++ p) [alice]
                  "dan@example.com" "pw" "Dan" "E" roleEmployee))
            tokenType := "Bearer"
            expiresIn := loginExpiresIn
            user := buildUserInfo
              (registerCreatedUser (fun p => "bcrypt:" ++ p) [alice]
                "dan@example.com" "pw" "Dan" "E" roleEmployee) } :=
  ⟨rfl,
   login_register_sync_failure_swallowed.1 checkPwA svcA [dupRoleCarol] []
     0 "carol@example.com" "pw" dupRoleCarol
     "role assignment already exists" rfl rfl rfl rfl,
   login_register_sync_failure_swallowed.2 (fun p => "bcrypt:" ++ p) svcA
     [alice] [roleEmployee] [] 0 "dan@example.com" "pw" "Dan" "E"
     roleEmployee rfl rfl⟩

lemma login_ok_inv {checkPw : String → String → Bool} {t : TokenService}
    {store : List User} {eng : GStore} {now : Int}
    {email password : String} {r : LoginResponse}
    (h : (Login checkPw t store eng now email password).1 = .ok r) :
    ∃ u, getByEmailWithRoles store email = some u ∧
      r = { accessToken := .signed .hs256 t.secretKey true
              (generateClaims t now u)
            tokenType := "Bearer"
            expiresIn := loginExpiresIn
            user := buildUserInfo u } := by
  unfold Login at h
  rcases hf : getByEmailWithRoles store email with _ | u
  · rw [hf] at h
    simp at h
  · rw [hf] at h
    by_cases ha : u.active
    · by_cases hpw : checkPw u.password password
      · simp [ha, hpw, TokenService.GenerateToken] at h
        exact ⟨u, rfl, h.symm⟩
      · simp [ha, hpw] at h
    · simp [ha] at h

lemma register_ok_inv {hashPw : String → String} {t : TokenService}
    {store : List User} {roleStore : List Role} {eng : GStore} {now : Int}
    {email password firstName lastName : String} {r : LoginResponse}
    (h : (Register hashPw t store roleStore eng now email password
        firstName lastName).1 = .ok r) :
    ∃ u, r = { accessToken := .signed .hs256 t.secretKey true
                 (generateClaims t now u)
               tokenType := "Bearer"
               expiresIn := loginExpiresIn
               user := buildUserInfo u } := by
  unfold Register at h
  split at h
  · simp at h
  · split at h
    · simp at h
    · simp only [] at h
      split at h
      · simp at h
      · next u' hget =>
          split at h
          · next e heq => simp [TokenService.GenerateToken] at heq
          · next newTok heq =>
              simp only [TokenService.GenerateToken,
                Except.ok.injEq] at heq
              simp only [Except.ok.injEq] at h
              exact ⟨u', by rw [← h, ← heq]⟩

lemma authRefresh_ok_inv {t : TokenService} {store : List User} {now : Int}
    {tok : TokenStr} {r : LoginResponse}
    (h : AuthRefreshToken t store now tok = .ok r) :
    ∃ u, r = { accessToken := .signed .hs256 t.secretKey true
                 (generateClaims t now u)
               tokenType := "Bearer"
               expiresIn := loginExpiresIn
               user := buildUserInfo u } := by
  unfold AuthRefreshToken at h
  split at h
  · split at h
    · simp at h
    · simp at h
  · split at h
    · simp at h
    · next u hg =>
        split at h
        · simp at h
        · split at h
          · next e heq => simp [TokenService.GenerateToken] at heq
          · next newTok heq =>
              simp only [TokenService.GenerateToken,
                Except.ok.injEq] at heq
              simp only [RefreshResult.ok.injEq] at h
              exact ⟨u, by rw [← h, ← heq]⟩

/-- C10: every successful Login, Register and AuthService.RefreshToken
response reports ExpiresIn as exactly 86400 seconds, for every configured
token expiry duration, while the expiry claim embedded in the issued token
is issuance time plus the configured duration — so whenever that duration
is not 86400 seconds the reported lifetime differs from the actual token
lifetime. -/
theorem expiresIn_reported_constant :
    loginExpiresIn = 86400 ∧
    (∀ (checkPw : String → String → Bool) (t : TokenService)
       (store : List User) (eng : GStore) (now : Int)
       (email password : String) (r : LoginResponse),
      (Login checkPw t store eng now email password).1 = .ok r →
      r.expiresIn = 86400 ∧
      tokenExpiry r.accessToken = some (now + t.tokenExpiration)) ∧
    (∀ (hashPw : String → String) (t : TokenService) (store : List User)
       (roleStore : List Role) (eng : GStore) (now : Int)
       (email password firstName lastName : String) (r : LoginResponse),
      (Register hashPw t store roleStore eng now email password firstName
          lastName).1 = .ok r →
      r.expiresIn = 86400 ∧
      tokenExpiry r.accessToken = some (now + t.tokenExpiration)) ∧
    (∀ (t : TokenService) (store : List User) (now : Int) (tok : TokenStr)
       (r : LoginResponse),
      AuthRefreshToken t store now tok = .ok r →
      r.expiresIn = 86400 ∧
      tokenExpiry r.accessToken = some (now + t.tokenExpiration)) ∧
    (∀ (checkPw : String → String → Bool) (t : TokenService)
       (store : List User) (eng : GStore) (now : Int)
       (email password : String) (r : LoginResponse),
      (Login checkPw t store eng now email password).1 = .ok r →
      t.tokenExpiration ≠ 86400 →
      tokenExpiry r.accessToken ≠ some (now + r.expiresIn)) := by
  have h86 : loginExpiresIn = 86400 := by decide
  refine ⟨h86, ?_, ?_, ?_, ?_⟩
  · intro cp t store eng now email pw r h
    obtain ⟨u, _, rfl⟩ := login_ok_inv h
    exact ⟨h86, rfl⟩
  · intro hashPw t store roleStore eng now email pw fn ln r h
    obtain ⟨u, rfl⟩ := register_ok_inv h
    exact ⟨h86, rfl⟩
  · intro t store now tok r h
    obtain ⟨u, rfl⟩ := authRefresh_ok_inv h
    exact ⟨h86, rfl⟩
  · intro cp t store eng now email pw r h hne hc
    obtain ⟨u, _, rfl⟩ := login_ok_inv h
    simp only [tokenExpiry, generateClaims, Option.some.injEq] at hc
    rw [h86] at hc
    omega

theorem expiresIn_reported_constant_witness :
    svcTwoHours.tokenExpiration ≠ 86400 ∧
    respW.expiresIn = 86400 ∧
    tokenExpiry respW.accessToken = some (0 + svcTwoHours.tokenExpiration) ∧
    tokenExpiry respW.accessToken ≠ some ((0 : Int) + respW.expiresIn) :=
  ⟨by decide,
   (expiresIn_reported_constant.2.1 checkPwA svcTwoHours [alice] [] 0
     "alice@example.com" "correcthorse" respW rfl).1,
   (expiresIn_reported_constant.2.1 checkPwA svcTwoHours [alice] [] 0
     "alice@example.com" "correcthorse" respW rfl).2,
   expiresIn_reported_constant.2.2.2.2 checkPwA svcTwoHours [alice] [] 0
     "alice@example.com" "correcthorse" respW rfl (by decide)⟩

end GoClean
